import Mathlib

/-!
Verification development for the `websurfx` backend aggregation core.

The engine-handler definitions are shallow embeddings of
`src/engine_handler.rs` and `src/models/engine_models.rs`.  The engine
implementations (`src/engines/*`), the aggregator (`src/results/aggregator.rs`)
and the cache (`src/cache/*`) are not part of the sources available here;
where a definition stands in for one of those it is modelled from the spec
and its doc comment says so.
-/

namespace Websurfx

/-- Mirrors `EngineErrorType` from `src/models/engine_models.rs`. -/
inductive EngineErrorType where
  | NoSuchEngineFound
  | EmptyResultSet
  | RequestError
  | UnexpectedError
deriving DecidableEq, Repr

/-- Mirrors `EngineError` from `src/models/engine_models.rs`:
an error kind together with the name of the engine that raised it. -/
structure EngineError where
  error_type : EngineErrorType
  engine : String
deriving DecidableEq, Repr

/-- Mirrors the `QueryType` bitflag enum from `src/models/engine_models.rs`.
`EngineHandler::search` only passes the value through to `fetch_results`,
so the single-flag variants suffice here. -/
inductive QueryType where
  | Text
  | Video
  | Image
  | File
  | AutoCompletion
deriving DecidableEq, Repr

/-- Mirrors `TimeRelavancy` from `src/models/engine_models.rs`. -/
inductive TimeRelavancy where
  | Anytime
  | LastDay
  | LastWeek
  | LastMonth
  | LastYear
deriving DecidableEq, Repr

/-- Modelled from the spec: `SearchResult` (§3) — the file
`src/models/aggregation_models.rs` is not among the available sources.
Fields: title, URL (identity key), description, and provenance, the
set of contributing provider names (kept as a duplicate-free list). -/
structure SearchResult where
  title : String
  url : String
  description : String
  provenance : List String
deriving DecidableEq, Repr

/-- A provider's result map, URL keyed — shallow embedding of
`HashMap<String, SearchResult>` as an association list. -/
abbrev ResultMap : Type := List (String × SearchResult)

/-- One element of `RawResults` from `src/engine_handler.rs`:
`Result<HashMap<String, SearchResult>, EngineError>`. -/
abbrev ProviderOutcome : Type := Except EngineError ResultMap

/-- The closed, build-time registry of engines matched in
`EngineHandler::new` (`src/engine_handler.rs`, lines 39-49). -/
inductive Engine where
  | duckduckgo
  | searx
  | brave
deriving DecidableEq, Repr

/-- Modelled from the spec: each engine's `get_name` (the
`src/engines/*` implementations are not among the available sources);
per the spec the registry names are the canonical engine identifiers. -/
def Engine.get_name : Engine → String
  | .duckduckgo => "duckduckgo"
  | .searx => "searx"
  | .brave => "brave"

/-- Embedding of Rust's `str::to_lowercase` as character-wise
lowercasing (the registry names are ASCII, where the two agree). -/
def lowercase (s : String) : String := ⟨s.data.map Char.toLower⟩

/-- The case-insensitive name resolution performed by the `match` on
`engine_name.to_lowercase().as_str()` in `EngineHandler::new`
(`src/engine_handler.rs`, lines 39-49).  Modelled from the spec in one
respect: the engine constructors (`DuckDuckGo::new()` etc., not among the
available sources) are taken to succeed, as §8 of the spec states that
construction succeeds iff every name resolves. -/
def resolveEngine (name : String) : Option Engine :=
  match lowercase name with
  | "duckduckgo" => some Engine.duckduckgo
  | "searx" => some Engine.searx
  | "brave" => some Engine.brave
  | _ => none

/-- Shallow embedding of `EngineHandler::new` (`src/engine_handler.rs`,
lines 35-57): resolve each configured name in list order, aborting at the
first unresolvable name with a `NoSuchEngineFound` error naming it;
otherwise return the resolved engine list (the handler's `engines` field). -/
def EngineHandler.new : List String → Except EngineError (List Engine)
  | [] => Except.ok []
  | engine_name :: rest =>
    match resolveEngine engine_name with
    | some engine =>
      match EngineHandler.new rest with
      | Except.ok engines => Except.ok (engine :: engines)
      | Except.error e => Except.error e
    | none =>
      Except.error { error_type := EngineErrorType.NoSuchEngineFound,
                     engine := engine_name }

/-- The subset test in `EngineHandler::search` (`src/engine_handler.rs`,
lines 80-85): with a requested subset, an engine is skipped unless the
subset contains its exact name; with no subset every engine passes. -/
def inSubset (engine_names : Option (List String)) (engine : Engine) : Bool :=
  match engine_names with
  | some names => names.contains engine.get_name
  | none => true

/-- The parameters `EngineHandler::search` forwards unchanged to each
engine's `fetch_results` (`src/engine_handler.rs`, lines 90-94). -/
structure SearchParams where
  query : String
  query_type : QueryType
  time_relevance : Option TimeRelavancy
  page : Nat
  safe_search : Nat

/-- The type of an engine's `fetch_results` (the `SearchEngine` trait,
`src/models/engine_models.rs`): per the trait contract every internal
fault is converted into an `EngineError`, so a fetch always completes
with a `ProviderOutcome`. -/
abbrev FetchFn : Type := Engine → SearchParams → ProviderOutcome

/-- Shallow embedding of `EngineHandler::search`
(`src/engine_handler.rs`, lines 69-106): walk the configured engines in
order, skip those excluded by the requested-name subset, run `fetch` for
each dispatched engine and collect the outcomes in dispatch order.
(Every spawned unit completes with a `ProviderOutcome`, so the join at
lines 98-103 keeps every task's result.) -/
def EngineHandler.search (engines : List Engine)
    (engine_names : Option (List String)) (fetch : FetchFn)
    (p : SearchParams) : List ProviderOutcome :=
  match engines with
  | [] => []
  | engine :: rest =>
    if inSubset engine_names engine then
      fetch engine p :: EngineHandler.search rest engine_names fetch p
    else
      EngineHandler.search rest engine_names fetch p

/-- The engines actually dispatched by `EngineHandler::search`: the
configured engines that pass the requested-subset filter, in
configuration order. -/
def dispatchedEngines (engines : List Engine)
    (engine_names : Option (List String)) : List Engine :=
  engines.filter (fun e => inSubset engine_names e)

/-- Modelled from the spec: the merge step's provenance union (§4.3
step 2) — `src/results/aggregator.rs` is not among the available
sources.  Adds to `r`'s provenance every contributing name it does not
already hold, keeping the existing order. -/
def addProvenance (r : SearchResult) (names : List String) : SearchResult :=
  { r with provenance :=
      r.provenance ++ names.filter (fun n => !r.provenance.contains n) }

/-- Modelled from the spec (§4.3 step 2): fold one URL-keyed entry into
the accumulated URL→SearchResult mapping.  On URL collision the
first-encountered title/description are kept and the provenance is
unioned with the new entry's contributing names; otherwise the entry is
appended, preserving first-encounter order. -/
def mergeEntry (acc : List (String × SearchResult))
    (entry : String × SearchResult) : List (String × SearchResult) :=
  if acc.any (fun q => q.1 == entry.1) then
    acc.map (fun q =>
      if q.1 == entry.1 then (q.1, addProvenance q.2 entry.2.provenance) else q)
  else
    acc ++ [entry]

/-- Modelled from the spec (§4.3 step 2): fold every success map, in the
fixed fold order, into one URL→SearchResult mapping. -/
def mergeMaps (maps : List ResultMap) : List (String × SearchResult) :=
  maps.foldl (fun acc m => m.foldl mergeEntry acc) []

/-- Modelled from the spec (§4.3 step 1): take the result maps of the
`Success` outcomes; `Failure` outcomes are excluded from ranking. -/
def successMaps (outcomes : List ProviderOutcome) : List ResultMap :=
  outcomes.filterMap (fun o =>
    match o with
    | Except.ok m => some m
    | Except.error _ => none)

/-- Modelled from the spec (§4.3 step 3): drop entries whose title and
description are both empty. -/
def filterNoise (l : List (String × SearchResult)) :
    List (String × SearchResult) :=
  l.filter (fun q => !(q.2.title == "" && q.2.description == ""))

/-- The ranking key: the size of a result's provenance set (§4.3 step 4).
Merged provenance lists are duplicate-free, so the list length is the
set size. -/
def provSize (r : SearchResult) : Nat := r.provenance.length

/-- Modelled from the spec (§4.3 step 4): insert a result into an
already-ranked list, after every result of equal or larger provenance
size — a stable descending insertion. -/
def insertRanked (r : SearchResult) : List SearchResult → List SearchResult
  | [] => [r]
  | x :: xs =>
    if provSize r ≤ provSize x then x :: insertRanked r xs else r :: x :: xs

/-- Modelled from the spec (§4.3 step 4): stable sort by descending
provenance-set size, processing results in first-merge order. -/
def rankResults (l : List SearchResult) : List SearchResult :=
  l.foldl (fun acc r => insertRanked r acc) []

/-- Modelled from the spec (§4.3): the Aggregator pipeline — keep the
success maps, merge them in fold order, drop noise entries, rank. -/
def aggregate (outcomes : List ProviderOutcome) : List SearchResult :=
  rankResults ((filterNoise (mergeMaps (successMaps outcomes))).map Prod.snd)

/-- Modelled from the spec: `CacheEntry` (§3) — the cache sources
(`src/cache/*`) are not among the available sources.  An ordered result
list with its creation time and TTL (times in abstract ticks). -/
structure CacheEntry where
  results : List SearchResult
  created : Nat
  ttl : Nat
deriving DecidableEq, Repr

/-- Modelled from the spec (§4.4): the cache's key→entry state, as an
association list keyed by the canonical query key. -/
abbrev Cache : Type := List (String × CacheEntry)

/-- Modelled from the spec (§4.4): `store(key, results, ttl)` creates or
replaces the entry for that key, stamping the current time as the
entry's creation time. -/
def Cache.store (c : Cache) (key : String) (results : List SearchResult)
    (ttl : Nat) (now : Nat) : Cache :=
  (key, { results := results, created := now, ttl := ttl }) ::
    c.filter (fun q => !(q.1 == key))

/-- Modelled from the spec (§4.4): `lookup(key)` is a pure read; an
entry older than its TTL at lookup time is treated as a miss. -/
def Cache.lookup (c : Cache) (key : String) (now : Nat) :
    Option (List SearchResult) :=
  match c.find? (fun q => q.1 == key) with
  | some q => if now ≤ q.2.created + q.2.ttl then some q.2.results else none
  | none => none

theorem search_eq_map_dispatched (engines : List Engine)
    (engine_names : Option (List String)) (fetch : FetchFn) (p : SearchParams) :
    EngineHandler.search engines engine_names fetch p =
      (dispatchedEngines engines engine_names).map (fun e => fetch e p) := by
  induction engines with
  | nil => rfl
  | cons e rest ih =>
    by_cases h : inSubset engine_names e
    · simp [EngineHandler.search, dispatchedEngines, List.filter, h, ih]
    · simp [EngineHandler.search, dispatchedEngines, List.filter, h, ih]

/-- C1: `EngineHandler::new` succeeds iff every configured name resolves
(case-insensitively) in the closed registry; when some name does not
resolve, construction fails with a `NoSuchEngineFound` error naming
exactly the first unresolvable name in list order, and no handler is
produced (the `Except` is an error, carrying no partial engine list). -/
theorem engine_handler_new_spec (names : List String) :
    ((∃ es, EngineHandler.new names = Except.ok es) ↔
      ∀ n ∈ names, (resolveEngine n).isSome = true) ∧
    (∀ m, names.find? (fun n => (resolveEngine n).isNone) = some m →
      EngineHandler.new names =
        Except.error { error_type := EngineErrorType.NoSuchEngineFound,
                       engine := m }) := by
  induction names with
  | nil =>
    refine ⟨by simp [EngineHandler.new], ?_⟩
    intro m hm
    simp at hm
  | cons n rest ih =>
    obtain ⟨ih1, ih2⟩ := ih
    cases hres : resolveEngine n with
    | none =>
      refine ⟨?_, ?_⟩
      · simp only [EngineHandler.new, hres]
        constructor
        · rintro ⟨es, hes⟩
          exact absurd hes (by simp)
        · intro h
          have := h n (by simp)
          rw [hres] at this
          simp at this
      · intro m hm
        rw [List.find?_cons_of_pos _ (by simp [hres])] at hm
        cases hm
        simp [EngineHandler.new, hres]
    | some e =>
      refine ⟨?_, ?_⟩
      · cases hrest : EngineHandler.new rest with
        | ok es =>
          simp only [EngineHandler.new, hres, hrest]
          constructor
          · intro _
            intro x hx
            rcases List.mem_cons.mp hx with h | h
            · rw [h, hres]; rfl
            · exact (ih1.mp ⟨es, hrest⟩) x h
          · intro _
            exact ⟨e :: es, rfl⟩
        | error err =>
          simp only [EngineHandler.new, hres, hrest]
          constructor
          · rintro ⟨es, hes⟩
            exact absurd hes (by simp)
          · intro h
            have : ∃ es, EngineHandler.new rest = Except.ok es := by
              apply ih1.mpr
              intro x hx
              exact h x (List.mem_cons_of_mem _ hx)
            rw [hrest] at this
            rcases this with ⟨es, hes⟩
            exact absurd hes (by simp)
      · intro m hm
        rw [List.find?_cons_of_neg _ (by simp [hres])] at hm
        have := ih2 m hm
        simp [EngineHandler.new, hres, this]

/-- Witness for C1 on concrete inputs: a list containing the
unresolvable name "bing" fails naming "bing", and an all-resolvable
list (with mixed letter case) succeeds. -/
theorem engine_handler_new_spec_witness :
    EngineHandler.new ["DuckDuckGo", "bing", "searx"] =
      Except.error { error_type := EngineErrorType.NoSuchEngineFound,
                     engine := "bing" } ∧
    (∃ es, EngineHandler.new ["Brave", "searx"] = Except.ok es) := by
  constructor
  · exact (engine_handler_new_spec ["DuckDuckGo", "bing", "searx"]).2 "bing"
      (by decide)
  · exact (engine_handler_new_spec ["Brave", "searx"]).1.mpr (by decide)

/-- C2: the outcome list of `EngineHandler::search` has exactly one
`ProviderOutcome` per dispatched provider: with a requested subset its
length is the number of configured engines whose name is in the subset,
and without one it is the number of all configured engines. -/
theorem search_outcome_count (engines : List Engine) (fetch : FetchFn)
    (p : SearchParams) :
    (∀ names : List String,
      (EngineHandler.search engines (some names) fetch p).length =
        (engines.filter (fun e => names.contains e.get_name)).length) ∧
    (EngineHandler.search engines none fetch p).length = engines.length := by
  constructor
  · intro names
    rw [search_eq_map_dispatched]
    simp [dispatchedEngines, inSubset]
  · rw [search_eq_map_dispatched]
    simp [dispatchedEngines, inSubset]

/-- C3: a `Failure` outcome from one dispatched provider is contained:
the call still returns a plain outcome list (never an error of the call),
the failing provider's error sits in its own slot `i`, and every other
slot `j` still holds exactly that provider's own fetch outcome. -/
theorem search_failure_contained (engines : List Engine)
    (engine_names : Option (List String)) (fetch : FetchFn) (p : SearchParams)
    (i : Nat) (e : Engine) (err : EngineError)
    (hi : (dispatchedEngines engines engine_names)[i]? = some e)
    (hfail : fetch e p = Except.error err) :
    (EngineHandler.search engines engine_names fetch p)[i]? =
      some (Except.error err) ∧
    ∀ j : Nat,
      (EngineHandler.search engines engine_names fetch p)[j]? =
        ((dispatchedEngines engines engine_names)[j]?).map (fun e2 => fetch e2 p) := by
  constructor
  · rw [search_eq_map_dispatched, List.getElem?_map, hi]
    simp [hfail]
  · intro j
    rw [search_eq_map_dispatched, List.getElem?_map]

/-- Witness for C3: with both registry engines configured and no subset,
the first engine failing with a `RequestError` leaves the second
engine's success in slot 1 and records the error in slot 0. -/
theorem search_failure_contained_witness :
    ((dispatchedEngines [Engine.duckduckgo, Engine.brave] none)[0]? =
        some Engine.duckduckgo ∧
      (fun (_ : Engine) (_ : SearchParams) =>
          (Except.error { error_type := EngineErrorType.RequestError,
                          engine := "duckduckgo" } : ProviderOutcome))
        Engine.duckduckgo
        { query := "q", query_type := QueryType.Text, time_relevance := none,
          page := 0, safe_search := 0 } =
        Except.error { error_type := EngineErrorType.RequestError,
                       engine := "duckduckgo" }) ∧
    (EngineHandler.search [Engine.duckduckgo, Engine.brave] none
        (fun _ _ =>
          Except.error { error_type := EngineErrorType.RequestError,
                         engine := "duckduckgo" })
        { query := "q", query_type := QueryType.Text, time_relevance := none,
          page := 0, safe_search := 0 })[0]? =
      some (Except.error { error_type := EngineErrorType.RequestError,
                           engine := "duckduckgo" }) := by
  refine ⟨⟨by rfl, by rfl⟩, ?_⟩
  exact (search_failure_contained [Engine.duckduckgo, Engine.brave] none
    (fun _ _ => Except.error { error_type := EngineErrorType.RequestError,
                               engine := "duckduckgo" })
    { query := "q", query_type := QueryType.Text, time_relevance := none,
      page := 0, safe_search := 0 }
    0 Engine.duckduckgo
    { error_type := EngineErrorType.RequestError, engine := "duckduckgo" }
    (by rfl) (by rfl)).1

/-- C9: with a requested-name subset present, a configured engine is
dispatched iff the subset contains its canonical name as an exact,
case-sensitive string; in particular `some ["DuckDuckGo"]` dispatches no
engine from the configuration `[duckduckgo]` — the search returns an
empty outcome list — even though `EngineHandler::new` resolves the very
same string "DuckDuckGo" case-insensitively. -/
theorem search_subset_case_sensitive (engines : List Engine)
    (names : List String) (fetch : FetchFn) (p : SearchParams) :
    (∀ e : Engine, e ∈ dispatchedEngines engines (some names) ↔
      (e ∈ engines ∧ names.contains e.get_name = true)) ∧
    resolveEngine "DuckDuckGo" = some Engine.duckduckgo ∧
    EngineHandler.search [Engine.duckduckgo] (some ["DuckDuckGo"]) fetch p = [] := by
  refine ⟨?_, by rfl, by rfl⟩
  intro e
  simp [dispatchedEngines, inSubset, List.mem_filter]

/-- Witness for C9: the general dispatch criterion applied to a concrete
configuration and subset. -/
theorem search_subset_case_sensitive_witness :
    Engine.brave ∈
      dispatchedEngines [Engine.duckduckgo, Engine.brave] (some ["brave"]) ∧
    ¬ Engine.duckduckgo ∈
      dispatchedEngines [Engine.duckduckgo, Engine.brave] (some ["brave"]) := by
  constructor
  · exact ((search_subset_case_sensitive [Engine.duckduckgo, Engine.brave]
      ["brave"] (fun _ _ => Except.ok [])
      { query := "q", query_type := QueryType.Text, time_relevance := none,
        page := 0, safe_search := 0 }).1 Engine.brave).mpr (by decide)
  · intro hmem
    have := ((search_subset_case_sensitive [Engine.duckduckgo, Engine.brave]
      ["brave"] (fun _ _ => Except.ok [])
      { query := "q", query_type := QueryType.Text, time_relevance := none,
        page := 0, safe_search := 0 }).1 Engine.duckduckgo).mp hmem
    exact absurd this.2 (by decide)

/-- C10: `EngineHandler::search` preserves configuration order: since
every fetch completes with a `ProviderOutcome` (the trait converts all
faults into errors, so no spawned task terminates abnormally), slot `i`
of the outcome list is the fetch outcome of the `i`-th configured engine
that passed the requested-subset filter. -/
theorem search_preserves_config_order (engines : List Engine)
    (engine_names : Option (List String)) (fetch : FetchFn) (p : SearchParams)
    (i : Nat) (hi : i < (dispatchedEngines engines engine_names).length) :
    (EngineHandler.search engines engine_names fetch p)[i]? =
      some (fetch ((dispatchedEngines engines engine_names).get ⟨i, hi⟩) p) := by
  rw [search_eq_map_dispatched, List.getElem?_map,
    List.getElem?_eq_getElem hi]
  simp [List.get_eq_getElem]

/-- Witness for C10: with engines `[duckduckgo, searx, brave]` and subset
`["brave", "duckduckgo"]`, slot 1 of the outcome list is brave's own
outcome. -/
theorem search_preserves_config_order_witness :
    (EngineHandler.search [Engine.duckduckgo, Engine.searx, Engine.brave]
      (some ["brave", "duckduckgo"])
      (fun e _ => Except.error { error_type := EngineErrorType.EmptyResultSet,
                                 engine := e.get_name })
      { query := "q", query_type := QueryType.Text, time_relevance := none,
        page := 0, safe_search := 0 })[1]? =
      some (Except.error { error_type := EngineErrorType.EmptyResultSet,
                           engine := "brave" }) := by
  exact search_preserves_config_order
    [Engine.duckduckgo, Engine.searx, Engine.brave]
    (some ["brave", "duckduckgo"])
    (fun e _ => Except.error { error_type := EngineErrorType.EmptyResultSet,
                               engine := e.get_name })
    { query := "q", query_type := QueryType.Text, time_relevance := none,
      page := 0, safe_search := 0 }
    1 (by decide)

/-- C4: merging two Success outcomes that map the same URL yields exactly
one result for that URL: title, URL and description come from the
first-encountered result in the fixed fold order, and the provenance set
is the union of both results' contributing provider names. -/
theorem aggregate_merge_dedup (u : String) (r1 r2 : SearchResult)
    (h : ¬(r1.title = "" ∧ r1.description = "")) :
    ∃ r, aggregate [Except.ok [(u, r1)], Except.ok [(u, r2)]] = [r] ∧
      r.title = r1.title ∧ r.url = r1.url ∧ r.description = r1.description ∧
      ∀ n, n ∈ r.provenance ↔ (n ∈ r1.provenance ∨ n ∈ r2.provenance) := by
  refine ⟨addProvenance r1 r2.provenance, ?_, rfl, rfl, rfl, ?_⟩
  · have h1 : successMaps [Except.ok [(u, r1)], Except.ok [(u, r2)]] =
        [[(u, r1)], [(u, r2)]] := rfl
    have h2 : mergeMaps [[(u, r1)], [(u, r2)]] =
        [(u, addProvenance r1 r2.provenance)] := by
      simp [mergeMaps, mergeEntry]
    have h3 : filterNoise [(u, addProvenance r1 r2.provenance)] =
        [(u, addProvenance r1 r2.provenance)] := by
      simp [filterNoise, addProvenance]
      tauto
    rw [aggregate, h1, h2, h3]
    rfl
  · intro n
    simp only [addProvenance, List.mem_append, List.mem_filter,
      Bool.not_eq_eq_eq_not, Bool.not_true]
    constructor
    · rintro (hn | ⟨hn, _⟩)
      · exact Or.inl hn
      · exact Or.inr hn
    · rintro (hn | hn)
      · exact Or.inl hn
      · by_cases h1 : n ∈ r1.provenance
        · exact Or.inl h1
        · refine Or.inr ⟨hn, ?_⟩
          rw [Bool.eq_false_iff]
          intro hc
          exact h1 (List.elem_iff.mp hc)

/-- Witness for C4: provider A's `{"https://x.test/a": "T1"}` and
provider B's `{"https://x.test/a": "T2"}` merge into exactly one result
with title "T1" and provenance `{A, B}`. -/
theorem aggregate_merge_dedup_witness :
    ∃ r, aggregate
        [Except.ok [("https://x.test/a",
           { title := "T1", url := "https://x.test/a", description := "",
             provenance := ["A"] })],
         Except.ok [("https://x.test/a",
           { title := "T2", url := "https://x.test/a", description := "",
             provenance := ["B"] })]] = [r] ∧
      r.title = "T1" ∧ r.url = "https://x.test/a" ∧ r.description = "" ∧
      ∀ n, n ∈ r.provenance ↔ (n ∈ ["A"] ∨ n ∈ ["B"]) :=
  aggregate_merge_dedup "https://x.test/a"
    { title := "T1", url := "https://x.test/a", description := "",
      provenance := ["A"] }
    { title := "T2", url := "https://x.test/a", description := "",
      provenance := ["B"] }
    (by simp)

/-- C5: when every dispatched provider returned a Failure (of any
mixture of error kinds), the Aggregator returns the empty ordered
sequence — the output type is a plain list, so no error is signalled. -/
theorem aggregate_all_failures_empty (outcomes : List ProviderOutcome)
    (h : ∀ o ∈ outcomes, ∃ err, o = Except.error err) :
    aggregate outcomes = [] := by
  have hs : successMaps outcomes = [] := by
    rw [successMaps, List.filterMap_eq_nil_iff]
    intro o ho
    rcases h o ho with ⟨err, rfl⟩
    rfl
  rw [aggregate, hs]
  rfl

/-- Witness for C5: two failures of different kinds aggregate to the
empty list. -/
theorem aggregate_all_failures_empty_witness :
    aggregate
      [Except.error { error_type := EngineErrorType.RequestError,
                      engine := "duckduckgo" },
       Except.error { error_type := EngineErrorType.UnexpectedError,
                      engine := "brave" }] = [] :=
  aggregate_all_failures_empty _ (by
    intro o ho
    simp at ho
    rcases ho with h | h
    · exact ⟨_, h⟩
    · exact ⟨_, h⟩)

theorem mem_insertRanked (r a : SearchResult) (l : List SearchResult) :
    a ∈ insertRanked r l ↔ a = r ∨ a ∈ l := by
  induction l with
  | nil => simp [insertRanked]
  | cons x xs ih =>
    by_cases hc : provSize r ≤ provSize x
    · rw [insertRanked, if_pos hc]
      simp only [List.mem_cons, ih]
      tauto
    · rw [insertRanked, if_neg hc]
      simp only [List.mem_cons]

theorem insertRanked_sorted (r : SearchResult) (l : List SearchResult)
    (hl : l.Pairwise (fun a b => provSize b ≤ provSize a)) :
    (insertRanked r l).Pairwise (fun a b => provSize b ≤ provSize a) := by
  induction l with
  | nil => simp [insertRanked]
  | cons x xs ih =>
    rcases List.pairwise_cons.mp hl with ⟨hx, hxs⟩
    by_cases hc : provSize r ≤ provSize x
    · rw [insertRanked, if_pos hc]
      refine List.pairwise_cons.mpr ⟨?_, ih hxs⟩
      intro b hb
      rcases (mem_insertRanked r b xs).mp hb with rfl | hb
      · exact hc
      · exact hx b hb
    · rw [insertRanked, if_neg hc]
      refine List.pairwise_cons.mpr ⟨?_, hl⟩
      intro b hb
      have hxr : provSize x ≤ provSize r := Nat.le_of_lt (Nat.lt_of_not_le hc)
      rcases List.mem_cons.mp hb with rfl | hb
      · exact hxr
      · exact Nat.le_trans (hx b hb) hxr

theorem rankResults_sorted_aux (l acc : List SearchResult)
    (hacc : acc.Pairwise (fun a b => provSize b ≤ provSize a)) :
    (l.foldl (fun acc2 r => insertRanked r acc2) acc).Pairwise
      (fun a b => provSize b ≤ provSize a) := by
  induction l generalizing acc with
  | nil => simpa using hacc
  | cons r rest ih => exact ih _ (insertRanked_sorted r acc hacc)

theorem rankResults_sorted (l : List SearchResult) :
    (rankResults l).Pairwise (fun a b => provSize b ≤ provSize a) :=
  rankResults_sorted_aux l [] (by simp)

theorem insertRanked_filter (r : SearchResult) (l : List SearchResult) (k : Nat)
    (hl : l.Pairwise (fun a b => provSize b ≤ provSize a)) :
    (insertRanked r l).filter (fun x => provSize x == k) =
      l.filter (fun x => provSize x == k) ++
        (if provSize r == k then [r] else []) := by
  induction l with
  | nil =>
    rw [insertRanked]
    by_cases hrk : (provSize r == k) = true <;> simp [hrk]
  | cons x xs ih =>
    rcases List.pairwise_cons.mp hl with ⟨hx, hxs⟩
    by_cases hc : provSize r ≤ provSize x
    · rw [insertRanked, if_pos hc]
      by_cases hxk : (provSize x == k) = true <;>
        simp [List.filter_cons, hxk, ih hxs]
    · have hlt : provSize x < provSize r := Nat.lt_of_not_le hc
      rw [insertRanked, if_neg hc]
      by_cases hrk : (provSize r == k) = true
      · have hk : provSize r = k := by simpa using hrk
        have hnil : (x :: xs).filter (fun y => provSize y == k) = [] := by
          rw [List.filter_eq_nil_iff]
          intro a ha
          rcases List.mem_cons.mp ha with rfl | ha
          · simp only [beq_iff_eq]
            omega
          · have hax := hx a ha
            simp only [beq_iff_eq]
            omega
        simp [List.filter_cons, hrk, hnil]
      · simp [List.filter_cons, hrk]

theorem rankResults_filter_aux (l acc : List SearchResult) (k : Nat)
    (hacc : acc.Pairwise (fun a b => provSize b ≤ provSize a)) :
    (l.foldl (fun acc2 r => insertRanked r acc2) acc).filter
        (fun x => provSize x == k) =
      acc.filter (fun x => provSize x == k) ++
        l.filter (fun x => provSize x == k) := by
  induction l generalizing acc with
  | nil => simp
  | cons r rest ih =>
    rw [List.foldl_cons, ih _ (insertRanked_sorted r acc hacc),
      insertRanked_filter r acc k hacc, List.filter_cons]
    by_cases hrk : (provSize r == k) = true <;> simp [hrk]

theorem rankResults_filter (l : List SearchResult) (k : Nat) :
    (rankResults l).filter (fun x => provSize x == k) =
      l.filter (fun x => provSize x == k) := by
  have := rankResults_filter_aux l [] k (by simp)
  simpa [rankResults] using this

/-- C6: the Aggregator's ranking is monotone in provenance-set size —
any later entry of the output has provenance size at most that of any
earlier entry (so a strictly larger provenance set is always placed at
or before a smaller one) — and ties are broken by the stable first-merge
order: for every size class `k`, the output lists its size-`k` results
in exactly the order the filtered merge produced them. -/
theorem aggregate_rank_monotone (outcomes : List ProviderOutcome) :
    (∀ i j (hi : i < (aggregate outcomes).length)
        (hj : j < (aggregate outcomes).length), i ≤ j →
      provSize ((aggregate outcomes).get ⟨j, hj⟩) ≤
        provSize ((aggregate outcomes).get ⟨i, hi⟩)) ∧
    (∀ k, (aggregate outcomes).filter (fun r => provSize r == k) =
      ((filterNoise (mergeMaps (successMaps outcomes))).map Prod.snd).filter
        (fun r => provSize r == k)) := by
  constructor
  · intro i j hi hj hij
    have hp : (aggregate outcomes).Pairwise
        (fun a b => provSize b ≤ provSize a) := by
      rw [aggregate]
      exact rankResults_sorted _
    rcases Nat.lt_or_ge i j with hlt | hge
    · exact List.pairwise_iff_get.mp hp ⟨i, hi⟩ ⟨j, hj⟩ hlt
    · have hij2 : i = j := Nat.le_antisymm hij hge
      subst hij2
      exact Nat.le_refl _
  · intro k
    rw [aggregate]
    exact rankResults_filter _ k

/-- Witness for C6 on a concrete outcome pair: the two-provider result
ranks first, and size class 1 keeps its first-merge order. -/
theorem aggregate_rank_monotone_witness :
    provSize ((aggregate
      [Except.ok [("u1", { title := "T1", url := "u1", description := "d",
                           provenance := ["A"] }),
                  ("u2", { title := "T2", url := "u2", description := "d",
                           provenance := ["A"] })],
       Except.ok [("u1", { title := "T1x", url := "u1", description := "d",
                           provenance := ["B"] })]]).get ⟨1, by decide⟩) ≤
      provSize ((aggregate
      [Except.ok [("u1", { title := "T1", url := "u1", description := "d",
                           provenance := ["A"] }),
                  ("u2", { title := "T2", url := "u2", description := "d",
                           provenance := ["A"] })],
       Except.ok [("u1", { title := "T1x", url := "u1", description := "d",
                           provenance := ["B"] })]]).get ⟨0, by decide⟩) :=
  (aggregate_rank_monotone
    [Except.ok [("u1", { title := "T1", url := "u1", description := "d",
                         provenance := ["A"] }),
                ("u2", { title := "T2", url := "u2", description := "d",
                         provenance := ["A"] })],
     Except.ok [("u1", { title := "T1x", url := "u1", description := "d",
                         provenance := ["B"] })]]).1
    0 1 (by decide) (by decide) (by decide)

/-- C7: storing a result list under a key and immediately looking the
key up returns the list unchanged (same entries, same order), and a
lookup of a key that was never stored returns nothing; lookup is a pure
read — it returns only an `Option` and leaves the cache state untouched. -/
theorem cache_round_trip (c : Cache) (k : String)
    (results : List SearchResult) (ttl now : Nat) :
    Cache.lookup (Cache.store c k results ttl now) k now = some results ∧
    (∀ k2, (∀ q ∈ c, q.1 ≠ k2) → Cache.lookup c k2 now = none) := by
  constructor
  · rw [Cache.store, Cache.lookup, List.find?_cons_of_pos _ (by simp)]
    simp [Nat.le_add_right]
  · intro k2 hk2
    rw [Cache.lookup]
    have hfind : c.find? (fun q => q.1 == k2) = none := by
      rw [List.find?_eq_none]
      intro q hq
      simp [hk2 q hq]
    rw [hfind]

/-- Witness for C7: a concrete store/lookup round trip and a miss on an
empty cache. -/
theorem cache_round_trip_witness :
    Cache.lookup
      (Cache.store [] "q1" [{ title := "T", url := "u", description := "",
                              provenance := ["A"] }] 60 5) "q1" 5 =
      some [{ title := "T", url := "u", description := "",
              provenance := ["A"] }] ∧
    Cache.lookup ([] : Cache) "q2" 5 = none := by
  have h := cache_round_trip [] "q1"
    [{ title := "T", url := "u", description := "", provenance := ["A"] }] 60 5
  exact ⟨h.1, h.2 "q2" (by simp)⟩

/-- C8: an entry stored with TTL `t` at time `c` is a miss at any lookup
time strictly later than `c + t`, with no explicit deletion having
happened. -/
theorem cache_expiry (c : Cache) (k : String) (results : List SearchResult)
    (ttl created later : Nat) (h : created + ttl < later) :
    Cache.lookup (Cache.store c k results ttl created) k later = none := by
  rw [Cache.store, Cache.lookup, List.find?_cons_of_pos _ (by simp)]
  simp only []
  rw [if_neg (by omega)]

/-- Witness for C8: an entry stored at time 0 with TTL 60 is a miss at
time 61. -/
theorem cache_expiry_witness :
    Cache.lookup
      (Cache.store [] "q1" [{ title := "T", url := "u", description := "",
                              provenance := ["A"] }] 60 0) "q1" 61 = none :=
  cache_expiry [] "q1"
    [{ title := "T", url := "u", description := "", provenance := ["A"] }]
    60 0 61 (by decide)

end Websurfx
